import Mathlib

/-!
# go-images: resize sizing and format dispatch

A shallow embedding of `processor.go` and `service.go`.

* Go's `int` is the 64-bit two's-complement integer: values are carried as `Int`
  and every arithmetic result is wrapped back into `[-2^63, 2^63)`.
* Go's `uint(x)` conversion is reduction modulo `2^64`.
* Integer division by zero is a run-time panic, carried by `Except Panic`.
* A Go result pair `([]byte, error)` is a pair `List UInt8 × Option Error`
  (`nil` bytes are `[]`, a `nil` error is `none`).
* The codecs, the resampler and the Unicode case table are third-party or
  standard-library code; they are the fields of `Env` and every theorem holds
  for all of them.
-/

namespace Images

/-! ## Machine integers -/

/-- Run-time panics of the Go program. -/
inductive Panic where
  | integerDivideByZero
  deriving DecidableEq, Repr

/-- Two's-complement wrap of a mathematical integer into the range of Go's 64-bit `int`;
the constants are `2^63` and `2^64`. -/
def wrapInt (x : Int) : Int :=
  (x + 9223372036854775808) % 18446744073709551616 - 9223372036854775808

/-- Go `a * b` on `int`. -/
def intMul (a b : Int) : Int := wrapInt (a * b)

/-- Go `a - b` on `int`. -/
def intSub (a b : Int) : Int := wrapInt (a - b)

/-- Go `a / b` on `int`: truncated division, panics on a zero divisor. -/
def intDiv (a b : Int) : Except Panic Int :=
  if b = 0 then .error .integerDivideByZero else .ok (wrapInt (Int.tdiv a b))

/-- Go conversion `uint(x)` of an `int`; the constant is `2^64`. -/
def toUint (x : Int) : Nat := (x % 18446744073709551616).toNat

/-- Values representable in Go's 64-bit `int`. -/
def InIntRange (x : Int) : Prop := -9223372036854775808 ≤ x ∧ x < 9223372036854775808

instance (x : Int) : Decidable (InIntRange x) :=
  inferInstanceAs (Decidable (-9223372036854775808 ≤ x ∧ x < 9223372036854775808))

/-! ## processor.go -/

abbrev Format := String

def JPEG : Format := "jpeg"
def JPG : Format := "jpg"
def GIF : Format := "gif"
def PNG : Format := "png"
def WebP : Format := "webp"

structure Conversion where
  Enabled : Bool
  Format : Format
  deriving DecidableEq, Repr

structure JPEGOptions where
  Quality : Int
  deriving DecidableEq, Repr

/-- Type `png.CompressionLevel` is an `int`; `png.BestCompression` is `-3`. -/
structure PNGOptions where
  Compression : Int
  Lossless : Bool
  Optimize : Bool
  deriving DecidableEq, Repr

/-- A `float32`, carried by its IEEE-754 bit pattern (`100` is `0x42C80000`); it is only
passed through to the encoder. -/
structure GoFloat32 where
  bits : Nat
  deriving DecidableEq, Repr

structure WebPOptions where
  Quality : GoFloat32
  Lossless : Bool
  deriving DecidableEq, Repr

structure Resize where
  Enabled : Bool
  MaxWidth : Int
  MaxHeight : Int
  deriving DecidableEq, Repr

structure Config where
  Conversion : Conversion
  JPEG : JPEGOptions
  PNG : PNGOptions
  WebP : WebPOptions
  Resize : Resize
  deriving DecidableEq, Repr

def DefaultConfig : Config :=
  { Conversion := { Enabled := true, Format := WebP },
    JPEG := { Quality := 100 },
    PNG := { Compression := -3, Lossless := true, Optimize := true },
    WebP := { Lossless := true, Quality := { bits := 1120403456 } },
    Resize := { Enabled := false, MaxWidth := 0, MaxHeight := 0 } }

def ValidExtension (ext : String) : Bool :=
  ext == JPEG || ext == JPG || ext == GIF || ext == PNG || ext == WebP

/-! ## The standard library's image model -/

structure Point where
  X : Int
  Y : Int
  deriving DecidableEq, Repr

structure Rectangle where
  Min : Point
  Max : Point
  deriving DecidableEq, Repr

/-- Go `Rectangle.Dx`: `r.Max.X - r.Min.X`. -/
def Rectangle.Dx (r : Rectangle) : Int := intSub r.Max.X r.Min.X

/-- Go `Rectangle.Dy`: `r.Max.Y - r.Min.Y`. -/
def Rectangle.Dy (r : Rectangle) : Int := intSub r.Max.Y r.Min.Y

/-- An `image.Image`: its bounds and its pixel data. -/
structure Image where
  Bounds : Rectangle
  Pix : List UInt8
  deriving DecidableEq, Repr

/-- The interpolation kernels of the resampling package. -/
inductive InterpolationFunction where
  | NearestNeighbor | Bilinear | Bicubic | MitchellNetravali | Lanczos2 | Lanczos3
  deriving DecidableEq, Repr

/-- A diagnostic produced by a codec. -/
structure CodecError where
  msg : String
  deriving DecidableEq, Repr

/-- The error values the service builds, one constructor per construction site:
the error package's `errors.New(msg, err)`, `fmt.Errorf` with a wrapped cause (`%w`),
and `fmt.Errorf` producing a plain message. -/
inductive Error where
  | new (msg : String) (cause : CodecError)
  | errorfWrap (msg : String) (cause : CodecError)
  | errorf (msg : String)
  deriving DecidableEq, Repr

/-- The external collaborators of the service. -/
structure Env where
  /-- Function `image.Decode`: the pixel grid and the detected format name, or a diagnostic. -/
  imageDecode : List UInt8 → Except CodecError (Image × String)
  /-- Function `jpeg.Encode` with its `Quality` option: the bytes written, or a diagnostic. -/
  jpegEncode : Image → Int → Except CodecError (List UInt8)
  /-- Function `png.Encode`. -/
  pngEncode : Image → Except CodecError (List UInt8)
  /-- Function `webp.Encode` with its `Lossless` and `Quality` options. -/
  webpEncode : Image → Bool → GoFloat32 → Except CodecError (List UInt8)
  /-- Function `gif.Encode` with empty options. -/
  gifEncode : Image → Except CodecError (List UInt8)
  /-- Function `resize.Resize(width, height, img, interp)`. -/
  resizeResize : Nat → Nat → Image → InterpolationFunction → Image
  /-- Function `unicode.ToLower` on a single rune. -/
  unicodeToLower : Char → Char

/-- Lower-casing of one ASCII byte: `c += 'a' - 'A'` when `'A' <= c && c <= 'Z'`. -/
def asciiToLower (c : Char) : Char :=
  if 65 ≤ c.toNat ∧ c.toNat ≤ 90 then Char.ofNat (c.toNat + 32) else c

/-- Go `strings.ToLower`: ASCII-only strings take the byte-wise path, every other string is
mapped rune by rune through `unicode.ToLower`. -/
def stringsToLower (env : Env) (s : String) : String :=
  if s.data.all (fun c => decide (c.toNat < 128)) then
    String.mk (s.data.map asciiToLower)
  else
    String.mk (s.data.map env.unicodeToLower)

/-! ## service.go -/

structure processor where
  config : Config
  deriving DecidableEq, Repr

def processor.Config (p : processor) : Config := p.config

def processor.resize (env : Env) (p : processor) (img : Image) : Except Panic Image :=
  let bounds := img.Bounds
  let width := bounds.Dx
  let height := bounds.Dy
  if width ≤ p.config.Resize.MaxWidth ∧ height ≤ p.config.Resize.MaxHeight then
    .ok img
  else if intMul width p.config.Resize.MaxHeight > intMul height p.config.Resize.MaxWidth then do
    let newWidth := toUint p.config.Resize.MaxWidth
    let q ← intDiv (intMul height p.config.Resize.MaxWidth) width
    let newHeight := toUint q
    pure (env.resizeResize newWidth newHeight img .Lanczos3)
  else do
    let newHeight := toUint p.config.Resize.MaxHeight
    let q ← intDiv (intMul width p.config.Resize.MaxHeight) height
    let newWidth := toUint q
    pure (env.resizeResize newWidth newHeight img .Lanczos3)

def processor.convert (env : Env) (p : processor) (img : Image) (format : String) :
    List UInt8 × Option Error :=
  let tok := stringsToLower env format
  if tok = "jpeg" ∨ tok = "jpg" then
    match env.jpegEncode img p.config.JPEG.Quality with
    | .error err => ([], some (.new "failed to encode jpeg:" err))
    | .ok buf => (buf, none)
  else if tok = "png" then
    match env.pngEncode img with
    | .error err => ([], some (.new "failed to encode png:" err))
    | .ok buf => (buf, none)
  else if tok = "webp" then
    match env.webpEncode img p.config.WebP.Lossless p.config.WebP.Quality with
    | .error err => ([], some (.new "failed to encode webp:" err))
    | .ok buf => (buf, none)
  else if tok = "gif" then
    match env.gifEncode img with
    | .error err => ([], some (.new "failed to encode gif:" err))
    | .ok buf => (buf, none)
  else
    ([], some (.errorf ("unsupported format: " ++ format)))

def processor.Optimize (env : Env) (p : processor) (r : List UInt8) :
    Except Panic (List UInt8 × Option Error) :=
  match env.imageDecode r with
  | .error err => .ok ([], some (.new "failed to decode image:" err))
  | .ok (img, format) => do
    let img ← if p.config.Resize.Enabled then p.resize env img else pure img
    let format := if p.config.Conversion.Enabled then p.config.Conversion.Format else format
    pure (p.convert env img format)

def processor.Resize (env : Env) (p : processor) (r : List UInt8) :
    Except Panic (List UInt8 × Option Error) :=
  match env.imageDecode r with
  | .error err => .ok ([], some (.errorfWrap "failed to decode image: " err))
  | .ok (img, format) => do
    let img ← p.resize env img
    pure (p.convert env img format)

def processor.Convert (env : Env) (p : processor) (r : List UInt8) (toFormat : String) :
    Except Panic (List UInt8 × Option Error) :=
  match env.imageDecode r with
  | .error err => .ok ([], some (.new "failed to decode image:" err))
  | .ok (img, _) => .ok (p.convert env img toFormat)

def New : processor := { config := DefaultConfig }

def NewWithConfig (cfg : Config) : processor := { config := cfg }

/-! ## Sample inputs -/

/-- An image whose bounds are `[0, w) × [0, h)`, with a single sample byte. -/
def imageOfSize (w h : Int) : Image :=
  { Bounds := { Min := { X := 0, Y := 0 }, Max := { X := w, Y := h } }, Pix := [7] }

/-- A configuration with the given resize bounds. -/
def configWith (resizeOn : Bool) (maxW maxH : Int) (convOn : Bool) (fmt : Format) : Config :=
  { Conversion := { Enabled := convOn, Format := fmt },
    JPEG := { Quality := 100 },
    PNG := { Compression := -3, Lossless := true, Optimize := true },
    WebP := { Quality := { bits := 1120403456 }, Lossless := true },
    Resize := { Enabled := resizeOn, MaxWidth := maxW, MaxHeight := maxH } }

/-- Collaborators that record their arguments: the decoder reads the size from the first two
bytes and the format from the third, every encoder emits a tag byte followed by the pixels,
the resampler returns an image of the requested size. -/
def recordingEnv : Env :=
  { imageDecode := fun r =>
      match r with
      | w :: h :: 0 :: _ => .ok (imageOfSize w.toNat h.toNat, "jpeg")
      | w :: h :: 1 :: _ => .ok (imageOfSize w.toNat h.toNat, "png")
      | _ => .error { msg := "image: unknown format" },
    jpegEncode := fun img _ => .ok (1 :: img.Pix),
    pngEncode := fun img => .ok (2 :: img.Pix),
    webpEncode := fun img _ _ => .ok (3 :: img.Pix),
    gifEncode := fun img => .ok (4 :: img.Pix),
    resizeResize := fun w h img _ => { imageOfSize w h with Pix := img.Pix },
    unicodeToLower := fun c => c }

/-! ## Arithmetic of the machine operations inside the `int` range -/

theorem wrapInt_of_inRange {x : Int} (hx : InIntRange x) : wrapInt x = x := by
  unfold InIntRange at hx
  unfold wrapInt
  omega

theorem intMul_of_inRange {a b : Int} (h : InIntRange (a * b)) : intMul a b = a * b :=
  wrapInt_of_inRange h

theorem toUint_of_inRange {x : Int} (h0 : 0 ≤ x) (hx : InIntRange x) : (toUint x : Int) = x := by
  unfold InIntRange at hx
  unfold toUint
  omega

theorem inRange_of_pos_mul {a b : Int} (ha : 0 < a) (hb : 0 < b) (h : InIntRange (a * b)) :
    InIntRange a := by
  unfold InIntRange at *
  have h1 : a ≤ a * b := by nlinarith
  omega

theorem inRange_ediv {a b : Int} (ha : 0 ≤ a) (hb : 0 < b) (h : InIntRange a) :
    0 ≤ a / b ∧ InIntRange (a / b) := by
  unfold InIntRange at *
  have h0 : 0 ≤ a / b := Int.ediv_nonneg ha (le_of_lt hb)
  have h1 : a / b ≤ a := Int.ediv_le_self b ha
  omega

/-- Inside the range, Go's division of a non-negative product by a positive divisor is the
floor quotient, converted to `uint` without change. -/
theorem intDiv_of_inRange {a b : Int} (ha : 0 ≤ a) (hb : 0 < b) (h : InIntRange a) :
    intDiv a b = .ok (a / b) := by
  unfold intDiv
  rw [if_neg (ne_of_gt hb), Int.tdiv_eq_ediv ha (le_of_lt hb),
    wrapInt_of_inRange (inRange_ediv ha hb h).2]

/-- The width-binding branch of `resize`, inside the range. -/
theorem resize_widthBinding (env : Env) (p : processor) (img : Image)
    (hw : 0 < img.Bounds.Dx) (hh : 0 < img.Bounds.Dy)
    (hmw : 0 < p.config.Resize.MaxWidth)
    (r1 : InIntRange (img.Bounds.Dx * p.config.Resize.MaxHeight))
    (r2 : InIntRange (img.Bounds.Dy * p.config.Resize.MaxWidth))
    (happ : ¬ (img.Bounds.Dx ≤ p.config.Resize.MaxWidth ∧
      img.Bounds.Dy ≤ p.config.Resize.MaxHeight))
    (hb : img.Bounds.Dx * p.config.Resize.MaxHeight > img.Bounds.Dy * p.config.Resize.MaxWidth) :
    p.resize env img = .ok (env.resizeResize p.config.Resize.MaxWidth.toNat
      (img.Bounds.Dy * p.config.Resize.MaxWidth / img.Bounds.Dx).toNat img .Lanczos3) := by
  have hpos : 0 ≤ img.Bounds.Dy * p.config.Resize.MaxWidth := by positivity
  have hq := inRange_ediv hpos hw r2
  have e1 : toUint p.config.Resize.MaxWidth = p.config.Resize.MaxWidth.toNat := by
    have := toUint_of_inRange (le_of_lt hmw) (inRange_of_pos_mul hmw hh (by rwa [mul_comm]))
    omega
  have e2 : toUint (img.Bounds.Dy * p.config.Resize.MaxWidth / img.Bounds.Dx)
      = (img.Bounds.Dy * p.config.Resize.MaxWidth / img.Bounds.Dx).toNat := by
    have := toUint_of_inRange hq.1 hq.2
    omega
  unfold processor.resize
  simp only [if_neg happ, intMul_of_inRange r1, intMul_of_inRange r2, if_pos hb,
    intDiv_of_inRange hpos hw r2, e1]
  simp only [bind, Except.bind, pure, Except.pure, e2]

/-- The height-binding branch of `resize`, inside the range. -/
theorem resize_heightBinding (env : Env) (p : processor) (img : Image)
    (hw : 0 < img.Bounds.Dx) (hh : 0 < img.Bounds.Dy)
    (hmh : 0 < p.config.Resize.MaxHeight)
    (r1 : InIntRange (img.Bounds.Dx * p.config.Resize.MaxHeight))
    (r2 : InIntRange (img.Bounds.Dy * p.config.Resize.MaxWidth))
    (happ : ¬ (img.Bounds.Dx ≤ p.config.Resize.MaxWidth ∧
      img.Bounds.Dy ≤ p.config.Resize.MaxHeight))
    (hb : ¬ img.Bounds.Dx * p.config.Resize.MaxHeight > img.Bounds.Dy * p.config.Resize.MaxWidth) :
    p.resize env img = .ok (env.resizeResize
      (img.Bounds.Dx * p.config.Resize.MaxHeight / img.Bounds.Dy).toNat
      p.config.Resize.MaxHeight.toNat img .Lanczos3) := by
  have hpos : 0 ≤ img.Bounds.Dx * p.config.Resize.MaxHeight := by positivity
  have hq := inRange_ediv hpos hh r1
  have e1 : toUint p.config.Resize.MaxHeight = p.config.Resize.MaxHeight.toNat := by
    have := toUint_of_inRange (le_of_lt hmh) (inRange_of_pos_mul hmh hw (by rwa [mul_comm]))
    omega
  have e2 : toUint (img.Bounds.Dx * p.config.Resize.MaxHeight / img.Bounds.Dy)
      = (img.Bounds.Dx * p.config.Resize.MaxHeight / img.Bounds.Dy).toNat := by
    have := toUint_of_inRange hq.1 hq.2
    omega
  unfold processor.resize
  simp only [if_neg happ, intMul_of_inRange r1, intMul_of_inRange r2, if_neg hb,
    intDiv_of_inRange hpos hh r1, e1]
  simp only [bind, Except.bind, pure, Except.pure, e2]

/-- Floor-quotient bounds: `a / b * b ≤ a < (a / b + 1) * b` for a positive divisor. -/
theorem ediv_bounds (a b : Int) (hb : 0 < b) : a / b * b ≤ a ∧ a < (a / b + 1) * b :=
  ⟨Int.ediv_mul_le a (ne_of_gt hb), Int.lt_ediv_add_one_mul_self a hb⟩

/-- Inside the range and with positive sizes, `resize` hands the resampler exactly one of two
pairs: the width bound with the floor quotient `h * maxW / w`, or the floor quotient
`w * maxH / h` with the height bound. -/
theorem resize_dims (p : processor) (img : Image)
    (hw : 0 < img.Bounds.Dx) (hh : 0 < img.Bounds.Dy)
    (hmw : 0 < p.config.Resize.MaxWidth) (hmh : 0 < p.config.Resize.MaxHeight)
    (r1 : InIntRange (img.Bounds.Dx * p.config.Resize.MaxHeight))
    (r2 : InIntRange (img.Bounds.Dy * p.config.Resize.MaxWidth))
    (happ : p.config.Resize.MaxWidth < img.Bounds.Dx ∨
      p.config.Resize.MaxHeight < img.Bounds.Dy) :
    ∃ newW newH : Nat,
      (∀ env : Env, p.resize env img = .ok (env.resizeResize newW newH img .Lanczos3)) ∧
      ((img.Bounds.Dx * p.config.Resize.MaxHeight > img.Bounds.Dy * p.config.Resize.MaxWidth ∧
          (newW : Int) = p.config.Resize.MaxWidth ∧
          (newH : Int) = img.Bounds.Dy * p.config.Resize.MaxWidth / img.Bounds.Dx) ∨
       (¬ img.Bounds.Dx * p.config.Resize.MaxHeight > img.Bounds.Dy * p.config.Resize.MaxWidth ∧
          (newW : Int) = img.Bounds.Dx * p.config.Resize.MaxHeight / img.Bounds.Dy ∧
          (newH : Int) = p.config.Resize.MaxHeight)) := by
  have happ2 : ¬ (img.Bounds.Dx ≤ p.config.Resize.MaxWidth ∧
      img.Bounds.Dy ≤ p.config.Resize.MaxHeight) := by omega
  by_cases hb :
      img.Bounds.Dx * p.config.Resize.MaxHeight > img.Bounds.Dy * p.config.Resize.MaxWidth
  · refine ⟨p.config.Resize.MaxWidth.toNat,
      (img.Bounds.Dy * p.config.Resize.MaxWidth / img.Bounds.Dx).toNat,
      fun env => resize_widthBinding env p img hw hh hmw r1 r2 happ2 hb, Or.inl ⟨hb, ?_, ?_⟩⟩
    · exact Int.toNat_of_nonneg (le_of_lt hmw)
    · exact Int.toNat_of_nonneg (Int.ediv_nonneg (by positivity) (le_of_lt hw))
  · refine ⟨(img.Bounds.Dx * p.config.Resize.MaxHeight / img.Bounds.Dy).toNat,
      p.config.Resize.MaxHeight.toNat,
      fun env => resize_heightBinding env p img hw hh hmh r1 r2 happ2 hb, Or.inr ⟨hb, ?_, ?_⟩⟩
    · exact Int.toNat_of_nonneg (Int.ediv_nonneg (by positivity) (le_of_lt hh))
    · exact Int.toNat_of_nonneg (le_of_lt hmh)

/-- The recording resampler is injective in the requested size. -/
theorem recordingEnv_resize_inj {a b c d : Nat} {img : Image} {k : InterpolationFunction}
    (h : recordingEnv.resizeResize a b img k = recordingEnv.resizeResize c d img k) :
    a = c ∧ b = d := by
  simp only [recordingEnv, imageOfSize, Image.mk.injEq, Rectangle.mk.injEq, Point.mk.injEq,
    Nat.cast_inj] at h
  exact ⟨h.1.2.1, h.1.2.2⟩

/-- The size handed to the resampler is determined by `resize`. -/
theorem resize_dims_unique {p : processor} {img : Image} {a b c d : Nat}
    (h1 : ∀ env : Env, p.resize env img = .ok (env.resizeResize a b img .Lanczos3))
    (h2 : ∀ env : Env, p.resize env img = .ok (env.resizeResize c d img .Lanczos3)) :
    c = a ∧ d = b := by
  have h := (h2 recordingEnv).symm.trans (h1 recordingEnv)
  exact recordingEnv_resize_inj (Except.ok.inj h)

/-! ## C1: the computed size fits the bounds and the binding side is exact -/

/-- The computed size fits the bounds, and the binding side equals its bound. -/
theorem resize_fits_bounds_aux (p : processor) (img : Image)
    (hw : 0 < img.Bounds.Dx) (hh : 0 < img.Bounds.Dy)
    (hmw : 0 < p.config.Resize.MaxWidth) (hmh : 0 < p.config.Resize.MaxHeight)
    (r1 : InIntRange (img.Bounds.Dx * p.config.Resize.MaxHeight))
    (r2 : InIntRange (img.Bounds.Dy * p.config.Resize.MaxWidth))
    (happ : p.config.Resize.MaxWidth < img.Bounds.Dx ∨
      p.config.Resize.MaxHeight < img.Bounds.Dy) :
    ∃ newW newH : Nat,
      (∀ env : Env, p.resize env img = .ok (env.resizeResize newW newH img .Lanczos3)) ∧
      (newW : Int) ≤ p.config.Resize.MaxWidth ∧ (newH : Int) ≤ p.config.Resize.MaxHeight ∧
      (img.Bounds.Dx * p.config.Resize.MaxHeight > img.Bounds.Dy * p.config.Resize.MaxWidth →
        (newW : Int) = p.config.Resize.MaxWidth) ∧
      (¬ img.Bounds.Dx * p.config.Resize.MaxHeight > img.Bounds.Dy * p.config.Resize.MaxWidth →
        (newH : Int) = p.config.Resize.MaxHeight) := by
  obtain ⟨newW, newH, hres, hd⟩ := resize_dims p img hw hh hmw hmh r1 r2 happ
  refine ⟨newW, newH, hres, ?_⟩
  rcases hd with ⟨hb, e1, e2⟩ | ⟨hb, e1, e2⟩
  · have hq := ediv_bounds (img.Bounds.Dy * p.config.Resize.MaxWidth) img.Bounds.Dx hw
    refine ⟨le_of_eq e1, ?_, fun _ => e1, fun hn => absurd hb hn⟩
    rw [e2]
    by_contra hcon
    have h1 : p.config.Resize.MaxHeight + 1
        ≤ img.Bounds.Dy * p.config.Resize.MaxWidth / img.Bounds.Dx := by omega
    have h2 := mul_le_mul_of_nonneg_right h1 (le_of_lt hw)
    nlinarith [hq.1]
  · have hq := ediv_bounds (img.Bounds.Dx * p.config.Resize.MaxHeight) img.Bounds.Dy hh
    refine ⟨?_, le_of_eq e2, fun hy => absurd hy hb, fun _ => e2⟩
    rw [e1]
    by_contra hcon
    have h1 : p.config.Resize.MaxWidth + 1
        ≤ img.Bounds.Dx * p.config.Resize.MaxHeight / img.Bounds.Dy := by omega
    have h2 := mul_le_mul_of_nonneg_right h1 (le_of_lt hh)
    nlinarith [hq.1]

/-- C1: for an image of positive width and height and positive bounds whose cross products fit
the `int` range, when resizing applies the size handed to the resampler satisfies
`newW ≤ maxW` and `newH ≤ maxH`, the binding side equals its bound (`newW = maxW` when
`w * maxH > h * maxW`, otherwise `newH = maxH`); and a 2000x1000 image with bounds 1000x1000
is resampled to exactly 1000x500. -/
theorem resize_fits_bounds (p : processor) (img : Image)
    (hw : 0 < img.Bounds.Dx) (hh : 0 < img.Bounds.Dy)
    (hmw : 0 < p.config.Resize.MaxWidth) (hmh : 0 < p.config.Resize.MaxHeight)
    (r1 : InIntRange (img.Bounds.Dx * p.config.Resize.MaxHeight))
    (r2 : InIntRange (img.Bounds.Dy * p.config.Resize.MaxWidth))
    (happ : p.config.Resize.MaxWidth < img.Bounds.Dx ∨
      p.config.Resize.MaxHeight < img.Bounds.Dy) :
    (∃ newW newH : Nat,
      (∀ env : Env, p.resize env img = .ok (env.resizeResize newW newH img .Lanczos3)) ∧
      (newW : Int) ≤ p.config.Resize.MaxWidth ∧ (newH : Int) ≤ p.config.Resize.MaxHeight ∧
      (img.Bounds.Dx * p.config.Resize.MaxHeight > img.Bounds.Dy * p.config.Resize.MaxWidth →
        (newW : Int) = p.config.Resize.MaxWidth) ∧
      (¬ img.Bounds.Dx * p.config.Resize.MaxHeight > img.Bounds.Dy * p.config.Resize.MaxWidth →
        (newH : Int) = p.config.Resize.MaxHeight)) ∧
    (∀ (env : Env) (q : processor) (im : Image),
      im.Bounds.Dx = 2000 → im.Bounds.Dy = 1000 →
      q.config.Resize.MaxWidth = 1000 → q.config.Resize.MaxHeight = 1000 →
      q.resize env im = .ok (env.resizeResize 1000 500 im .Lanczos3)) := by
  refine ⟨resize_fits_bounds_aux p img hw hh hmw hmh r1 r2 happ, ?_⟩
  intro env q im hx hy hmx hmy
  unfold processor.resize
  simp only [hx, hy, hmx, hmy]
  rfl

/-- Witness of C1: a 2000x1000 image under bounds 1000x1000. -/
theorem resize_fits_bounds_witness :
    (∃ newW newH : Nat,
      (∀ env : Env, processor.resize env ⟨configWith true 1000 1000 false "png"⟩
          (imageOfSize 2000 1000)
        = .ok (env.resizeResize newW newH (imageOfSize 2000 1000) .Lanczos3)) ∧
      (newW : Int) ≤ 1000 ∧ (newH : Int) ≤ 1000 ∧
      ((2000 : Int) * 1000 > 1000 * 1000 → (newW : Int) = 1000) ∧
      (¬ (2000 : Int) * 1000 > 1000 * 1000 → (newH : Int) = 1000)) ∧
    (∀ (env : Env) (q : processor) (im : Image),
      im.Bounds.Dx = 2000 → im.Bounds.Dy = 1000 →
      q.config.Resize.MaxWidth = 1000 → q.config.Resize.MaxHeight = 1000 →
      q.resize env im = .ok (env.resizeResize 1000 500 im .Lanczos3)) :=
  resize_fits_bounds ⟨configWith true 1000 1000 false "png"⟩ (imageOfSize 2000 1000)
    (by decide) (by decide) (by decide) (by decide) ⟨by decide, by decide⟩
    ⟨by decide, by decide⟩ (Or.inl (by decide))

/-! ## C2: inside the bounds `resize` returns its argument -/

/-- C2: when `w ≤ maxW` and `h ≤ maxH`, `resize` returns the input image itself, whatever the
resampler is (it is not consulted); and a 500x1000 image with bounds 1000x1000 is returned
unchanged. -/
theorem resize_noop (p : processor) (img : Image)
    (h1 : img.Bounds.Dx ≤ p.config.Resize.MaxWidth)
    (h2 : img.Bounds.Dy ≤ p.config.Resize.MaxHeight) :
    (∀ env : Env, p.resize env img = .ok img) ∧
    (∀ (env : Env) (q : processor) (im : Image),
      im.Bounds.Dx = 500 → im.Bounds.Dy = 1000 →
      q.config.Resize.MaxWidth = 1000 → q.config.Resize.MaxHeight = 1000 →
      q.resize env im = .ok im) := by
  constructor
  · intro env
    unfold processor.resize
    simp only [if_pos (And.intro h1 h2)]
  · intro env q im hx hy hmx hmy
    unfold processor.resize
    simp only [hx, hy, hmx, hmy]
    rfl

/-- Witness of C2: a 500x1000 image under bounds 1000x1000. -/
theorem resize_noop_witness :
    ((imageOfSize 500 1000).Bounds.Dx ≤ 1000 ∧ (imageOfSize 500 1000).Bounds.Dy ≤ 1000) ∧
    (∀ env : Env, processor.resize env ⟨configWith true 1000 1000 false "png"⟩
        (imageOfSize 500 1000) = .ok (imageOfSize 500 1000)) :=
  ⟨⟨by decide, by decide⟩,
    (resize_noop ⟨configWith true 1000 1000 false "png"⟩ (imageOfSize 500 1000)
      (by decide) (by decide)).1⟩

/-! ## C3: no upscaling -/

/-- C3, as stated, fails: a 3000x2000 image under the positive bounds `maxW = 1000`,
`maxH = 2^62` makes `3000 * 2^62` wrap to `0`, the height branch is taken and the resampler
is asked for `0 x 2^62`, a height far above the input height 2000. -/
theorem resize_upscales_on_wrap :
    (0 < (imageOfSize 3000 2000).Bounds.Dx ∧ 0 < (imageOfSize 3000 2000).Bounds.Dy ∧
      (0 : Int) < 1000 ∧ (0 : Int) < 4611686018427387904 ∧
      InIntRange 4611686018427387904) ∧
    (∀ env : Env, processor.resize env ⟨configWith true 1000 4611686018427387904 false "png"⟩
        (imageOfSize 3000 2000)
      = .ok (env.resizeResize 0 4611686018427387904 (imageOfSize 3000 2000) .Lanczos3)) ∧
    ¬ ∃ newW newH : Nat,
      (∀ env : Env, processor.resize env ⟨configWith true 1000 4611686018427387904 false "png"⟩
          (imageOfSize 3000 2000)
        = .ok (env.resizeResize newW newH (imageOfSize 3000 2000) .Lanczos3)) ∧
      (newW : Int) ≤ (imageOfSize 3000 2000).Bounds.Dx ∧
      (newH : Int) ≤ (imageOfSize 3000 2000).Bounds.Dy := by
  have hcode : ∀ env : Env,
      processor.resize env ⟨configWith true 1000 4611686018427387904 false "png"⟩
        (imageOfSize 3000 2000)
      = .ok (env.resizeResize 0 4611686018427387904 (imageOfSize 3000 2000) .Lanczos3) :=
    fun _ => rfl
  refine ⟨⟨by decide, by decide, by decide, by decide, ⟨by decide, by decide⟩⟩, hcode, ?_⟩
  rintro ⟨newW, newH, hres, -, hle⟩
  obtain ⟨-, e2⟩ := resize_dims_unique hcode hres
  subst e2
  revert hle
  decide

/-- C3, amended: for positive sizes and positive bounds whose cross products fit the `int`
range, the size chosen by `resize` never exceeds the input size: inside the bounds the image
is returned as it is, otherwise the resampler is asked for `newW ≤ w` and `newH ≤ h`. -/
theorem resize_never_upscales (p : processor) (img : Image)
    (hw : 0 < img.Bounds.Dx) (hh : 0 < img.Bounds.Dy)
    (hmw : 0 < p.config.Resize.MaxWidth) (hmh : 0 < p.config.Resize.MaxHeight)
    (r1 : InIntRange (img.Bounds.Dx * p.config.Resize.MaxHeight))
    (r2 : InIntRange (img.Bounds.Dy * p.config.Resize.MaxWidth)) :
    (img.Bounds.Dx ≤ p.config.Resize.MaxWidth ∧ img.Bounds.Dy ≤ p.config.Resize.MaxHeight →
      ∀ env : Env, p.resize env img = .ok img) ∧
    (p.config.Resize.MaxWidth < img.Bounds.Dx ∨ p.config.Resize.MaxHeight < img.Bounds.Dy →
      ∃ newW newH : Nat,
        (∀ env : Env, p.resize env img = .ok (env.resizeResize newW newH img .Lanczos3)) ∧
        (newW : Int) ≤ img.Bounds.Dx ∧ (newH : Int) ≤ img.Bounds.Dy) := by
  constructor
  · intro hin env
    unfold processor.resize
    simp only [if_pos hin]
  · intro happ
    obtain ⟨newW, newH, hres, hd⟩ := resize_dims p img hw hh hmw hmh r1 r2 happ
    refine ⟨newW, newH, hres, ?_⟩
    rcases hd with ⟨hb, e1, e2⟩ | ⟨hb, e1, e2⟩
    · have hq := ediv_bounds (img.Bounds.Dy * p.config.Resize.MaxWidth) img.Bounds.Dx hw
      have hlt : p.config.Resize.MaxWidth < img.Bounds.Dx := by
        rcases happ with h | h
        · exact h
        · by_contra hcon
          have h3 : img.Bounds.Dx ≤ p.config.Resize.MaxWidth := by omega
          nlinarith [mul_le_mul_of_nonneg_right h3 (le_of_lt hh),
            mul_lt_mul_of_pos_left h hw]
      refine ⟨by omega, ?_⟩
      rw [e2]
      by_contra hcon
      have h1 : img.Bounds.Dy + 1
          ≤ img.Bounds.Dy * p.config.Resize.MaxWidth / img.Bounds.Dx := by omega
      nlinarith [mul_le_mul_of_nonneg_right h1 (le_of_lt hw), hq.1,
        mul_lt_mul_of_pos_left hlt hh]
    · have hq := ediv_bounds (img.Bounds.Dx * p.config.Resize.MaxHeight) img.Bounds.Dy hh
      have hlt : p.config.Resize.MaxHeight < img.Bounds.Dy := by
        rcases happ with h | h
        · by_contra hcon
          have h3 : img.Bounds.Dy ≤ p.config.Resize.MaxHeight := by omega
          nlinarith [mul_le_mul_of_nonneg_left h3 (le_of_lt hw),
            mul_lt_mul_of_pos_left h hh]
        · exact h
      refine ⟨?_, by omega⟩
      rw [e1]
      by_contra hcon
      have h1 : img.Bounds.Dx + 1
          ≤ img.Bounds.Dx * p.config.Resize.MaxHeight / img.Bounds.Dy := by omega
      nlinarith [mul_le_mul_of_nonneg_right h1 (le_of_lt hh), hq.1,
        mul_lt_mul_of_pos_left hlt hw]

/-- Witness of the amended C3: a 1000x4000 image under bounds 1000x1000. -/
theorem resize_never_upscales_witness :
    ((imageOfSize 1000 4000).Bounds.Dx ≤ 1000 ∧ (imageOfSize 1000 4000).Bounds.Dy ≤ 1000 →
      ∀ env : Env, processor.resize env ⟨configWith true 1000 1000 false "png"⟩
        (imageOfSize 1000 4000) = .ok (imageOfSize 1000 4000)) ∧
    ((1000 : Int) < (imageOfSize 1000 4000).Bounds.Dx ∨
        (1000 : Int) < (imageOfSize 1000 4000).Bounds.Dy →
      ∃ newW newH : Nat,
        (∀ env : Env, processor.resize env ⟨configWith true 1000 1000 false "png"⟩
            (imageOfSize 1000 4000)
          = .ok (env.resizeResize newW newH (imageOfSize 1000 4000) .Lanczos3)) ∧
        (newW : Int) ≤ (imageOfSize 1000 4000).Bounds.Dx ∧
        (newH : Int) ≤ (imageOfSize 1000 4000).Bounds.Dy) :=
  resize_never_upscales ⟨configWith true 1000 1000 false "png"⟩ (imageOfSize 1000 4000)
    (by decide) (by decide) (by decide) (by decide) ⟨by decide, by decide⟩
    ⟨by decide, by decide⟩

/-! ## C8: the larger computed side against the larger bound -/

/-- C8, as stated, fails: a 4000x1000 image under bounds 1000x2000 is width-bound and is
resampled to 1000x250, so the larger computed side is 1000 while the larger bound is 2000. -/
theorem resize_max_differs :
    ((2000 : Int) < (imageOfSize 4000 1000).Bounds.Dx ∨
      (2000 : Int) < (imageOfSize 4000 1000).Bounds.Dy) ∧
    (∀ env : Env, processor.resize env ⟨configWith true 1000 2000 false "png"⟩
        (imageOfSize 4000 1000)
      = .ok (env.resizeResize 1000 250 (imageOfSize 4000 1000) .Lanczos3)) ∧
    ¬ ∃ newW newH : Nat,
      (∀ env : Env, processor.resize env ⟨configWith true 1000 2000 false "png"⟩
          (imageOfSize 4000 1000)
        = .ok (env.resizeResize newW newH (imageOfSize 4000 1000) .Lanczos3)) ∧
      max (newW : Int) (newH : Int) = max (1000 : Int) 2000 := by
  have hcode : ∀ env : Env,
      processor.resize env ⟨configWith true 1000 2000 false "png"⟩ (imageOfSize 4000 1000)
      = .ok (env.resizeResize 1000 250 (imageOfSize 4000 1000) .Lanczos3) :=
    fun _ => rfl
  refine ⟨Or.inl (by decide), hcode, ?_⟩
  rintro ⟨newW, newH, hres, hmax⟩
  obtain ⟨e1, e2⟩ := resize_dims_unique hcode hres
  subst e1 e2
  revert hmax
  decide

/-- C8, amended: for positive sizes and positive bounds whose cross products fit the `int`
range, when resizing applies `max(newW, newH) ≤ max(maxW, maxH)`, with equality whenever the
bound of the binding side is the larger bound (width-bound with `maxH ≤ maxW`, or
height-bound with `maxW ≤ maxH`; in particular whenever `maxW = maxH`). -/
theorem resize_max_le (p : processor) (img : Image)
    (hw : 0 < img.Bounds.Dx) (hh : 0 < img.Bounds.Dy)
    (hmw : 0 < p.config.Resize.MaxWidth) (hmh : 0 < p.config.Resize.MaxHeight)
    (r1 : InIntRange (img.Bounds.Dx * p.config.Resize.MaxHeight))
    (r2 : InIntRange (img.Bounds.Dy * p.config.Resize.MaxWidth))
    (happ : p.config.Resize.MaxWidth < img.Bounds.Dx ∨
      p.config.Resize.MaxHeight < img.Bounds.Dy) :
    ∃ newW newH : Nat,
      (∀ env : Env, p.resize env img = .ok (env.resizeResize newW newH img .Lanczos3)) ∧
      max (newW : Int) (newH : Int)
        ≤ max p.config.Resize.MaxWidth p.config.Resize.MaxHeight ∧
      (img.Bounds.Dx * p.config.Resize.MaxHeight > img.Bounds.Dy * p.config.Resize.MaxWidth →
        p.config.Resize.MaxHeight ≤ p.config.Resize.MaxWidth →
        max (newW : Int) (newH : Int)
          = max p.config.Resize.MaxWidth p.config.Resize.MaxHeight) ∧
      (¬ img.Bounds.Dx * p.config.Resize.MaxHeight > img.Bounds.Dy * p.config.Resize.MaxWidth →
        p.config.Resize.MaxWidth ≤ p.config.Resize.MaxHeight →
        max (newW : Int) (newH : Int)
          = max p.config.Resize.MaxWidth p.config.Resize.MaxHeight) := by
  obtain ⟨newW, newH, hres, hle1, hle2, hwb, hhb⟩ :=
    resize_fits_bounds_aux p img hw hh hmw hmh r1 r2 happ
  refine ⟨newW, newH, hres, ?_, ?_, ?_⟩
  · exact max_le_max hle1 hle2
  · intro hb hm
    have := hwb hb
    rw [max_eq_left hm, max_eq_left (by omega)]
    exact this
  · intro hb hm
    have := hhb hb
    rw [max_eq_right hm, max_eq_right (by omega)]
    exact this

/-- Witness of the amended C8: a 4000x1000 image under bounds 1000x2000. -/
theorem resize_max_le_witness :
    ∃ newW newH : Nat,
      (∀ env : Env, processor.resize env ⟨configWith true 1000 2000 false "png"⟩
          (imageOfSize 4000 1000)
        = .ok (env.resizeResize newW newH (imageOfSize 4000 1000) .Lanczos3)) ∧
      max (newW : Int) (newH : Int) ≤ max (1000 : Int) 2000 ∧
      ((imageOfSize 4000 1000).Bounds.Dx * 2000 > (imageOfSize 4000 1000).Bounds.Dy * 1000 →
        (2000 : Int) ≤ 1000 → max (newW : Int) (newH : Int) = max (1000 : Int) 2000) ∧
      (¬ (imageOfSize 4000 1000).Bounds.Dx * 2000 > (imageOfSize 4000 1000).Bounds.Dy * 1000 →
        (1000 : Int) ≤ 2000 → max (newW : Int) (newH : Int) = max (1000 : Int) 2000) :=
  resize_max_le ⟨configWith true 1000 2000 false "png"⟩ (imageOfSize 4000 1000)
    (by decide) (by decide) (by decide) (by decide) ⟨by decide, by decide⟩
    ⟨by decide, by decide⟩ (Or.inl (by decide))

/-! ## C9: aspect preservation up to truncation -/

/-- C9, as stated, fails: a 4000x3000 image under the positive bounds `maxW = 800`,
`maxH = 2^62` has `4000 * 2^62 > 3000 * 800`, but the machine product wraps to `0`, the height
branch is taken and the resampler is asked for `0 x 2^62`: `newW` is not `maxW`, and neither
truncation inequality holds for the computed size. -/
theorem resize_aspect_lost_on_wrap :
    (0 < (imageOfSize 4000 3000).Bounds.Dx ∧ 0 < (imageOfSize 4000 3000).Bounds.Dy ∧
      (0 : Int) < 800 ∧ (0 : Int) < 4611686018427387904 ∧ InIntRange 4611686018427387904 ∧
      (800 : Int) < (imageOfSize 4000 3000).Bounds.Dx) ∧
    (∀ env : Env, processor.resize env ⟨configWith true 800 4611686018427387904 false "png"⟩
        (imageOfSize 4000 3000)
      = .ok (env.resizeResize 0 4611686018427387904 (imageOfSize 4000 3000) .Lanczos3)) ∧
    (¬ ∃ newW newH : Nat,
      (∀ env : Env, processor.resize env ⟨configWith true 800 4611686018427387904 false "png"⟩
          (imageOfSize 4000 3000)
        = .ok (env.resizeResize newW newH (imageOfSize 4000 3000) .Lanczos3)) ∧
      ((4000 : Int) * 4611686018427387904 > 3000 * 800 →
        (newW : Int) = 800 ∧ (newH : Int) = 3000 * 800 / 4000 ∧
        0 ≤ (3000 : Int) * newW - 4000 * newH ∧ (3000 : Int) * newW - 4000 * newH < 4000) ∧
      (¬ (4000 : Int) * 4611686018427387904 > 3000 * 800 →
        (newH : Int) = 4611686018427387904 ∧
        (newW : Int) = 4000 * 4611686018427387904 / 3000 ∧
        0 ≤ (4000 : Int) * newH - 3000 * newW ∧ (4000 : Int) * newH - 3000 * newW < 3000)) ∧
    ¬ (0 ≤ (3000 : Int) * 0 - 4000 * 4611686018427387904) ∧
    ¬ ((4000 : Int) * 4611686018427387904 - 3000 * 0 < 3000) := by
  have hcode : ∀ env : Env,
      processor.resize env ⟨configWith true 800 4611686018427387904 false "png"⟩
        (imageOfSize 4000 3000)
      = .ok (env.resizeResize 0 4611686018427387904 (imageOfSize 4000 3000) .Lanczos3) :=
    fun _ => rfl
  refine ⟨⟨by decide, by decide, by decide, by decide, ⟨by decide, by decide⟩, by decide⟩,
    hcode, ?_, by decide, by decide⟩
  rintro ⟨newW, newH, hres, hwb, -⟩
  obtain ⟨e1, -⟩ := resize_dims_unique hcode hres
  subst e1
  have h := (hwb (by decide)).1
  revert h
  decide

/-- C9, amended: for positive sizes and positive bounds whose cross products fit the `int`
range, when resizing applies: if `w * maxH > h * maxW` then `newW = maxW`,
`newH = floor(h * maxW / w)` and `0 ≤ h * newW - w * newH < w`; otherwise `newH = maxH`,
`newW = floor(w * maxH / h)` and `0 ≤ w * newH - h * newW < h`. -/
theorem resize_aspect_truncation (p : processor) (img : Image)
    (hw : 0 < img.Bounds.Dx) (hh : 0 < img.Bounds.Dy)
    (hmw : 0 < p.config.Resize.MaxWidth) (hmh : 0 < p.config.Resize.MaxHeight)
    (r1 : InIntRange (img.Bounds.Dx * p.config.Resize.MaxHeight))
    (r2 : InIntRange (img.Bounds.Dy * p.config.Resize.MaxWidth))
    (happ : p.config.Resize.MaxWidth < img.Bounds.Dx ∨
      p.config.Resize.MaxHeight < img.Bounds.Dy) :
    ∃ newW newH : Nat,
      (∀ env : Env, p.resize env img = .ok (env.resizeResize newW newH img .Lanczos3)) ∧
      (img.Bounds.Dx * p.config.Resize.MaxHeight > img.Bounds.Dy * p.config.Resize.MaxWidth →
        (newW : Int) = p.config.Resize.MaxWidth ∧
        (newH : Int) = img.Bounds.Dy * p.config.Resize.MaxWidth / img.Bounds.Dx ∧
        0 ≤ img.Bounds.Dy * newW - img.Bounds.Dx * newH ∧
        img.Bounds.Dy * newW - img.Bounds.Dx * newH < img.Bounds.Dx) ∧
      (¬ img.Bounds.Dx * p.config.Resize.MaxHeight > img.Bounds.Dy * p.config.Resize.MaxWidth →
        (newH : Int) = p.config.Resize.MaxHeight ∧
        (newW : Int) = img.Bounds.Dx * p.config.Resize.MaxHeight / img.Bounds.Dy ∧
        0 ≤ img.Bounds.Dx * newH - img.Bounds.Dy * newW ∧
        img.Bounds.Dx * newH - img.Bounds.Dy * newW < img.Bounds.Dy) := by
  obtain ⟨newW, newH, hres, hd⟩ := resize_dims p img hw hh hmw hmh r1 r2 happ
  refine ⟨newW, newH, hres, ?_⟩
  rcases hd with ⟨hb, e1, e2⟩ | ⟨hb, e1, e2⟩
  · have hq := ediv_bounds (img.Bounds.Dy * p.config.Resize.MaxWidth) img.Bounds.Dx hw
    refine ⟨fun _ => ⟨e1, e2, ?_, ?_⟩, fun hn => absurd hb hn⟩
    · rw [e1, e2]; nlinarith [hq.1]
    · rw [e1, e2]; nlinarith [hq.2]
  · have hq := ediv_bounds (img.Bounds.Dx * p.config.Resize.MaxHeight) img.Bounds.Dy hh
    refine ⟨fun hy => absurd hy hb, fun _ => ⟨e2, e1, ?_, ?_⟩⟩
    · rw [e1, e2]; nlinarith [hq.1]
    · rw [e1, e2]; nlinarith [hq.2]

/-- Witness of the amended C9: a 1920x1080 image under bounds 1000x1000, resampled to
1000x562. -/
theorem resize_aspect_truncation_witness :
    ∃ newW newH : Nat,
      (∀ env : Env, processor.resize env ⟨configWith true 1000 1000 false "png"⟩
          (imageOfSize 1920 1080)
        = .ok (env.resizeResize newW newH (imageOfSize 1920 1080) .Lanczos3)) ∧
      ((imageOfSize 1920 1080).Bounds.Dx * 1000 > (imageOfSize 1920 1080).Bounds.Dy * 1000 →
        (newW : Int) = 1000 ∧
        (newH : Int) = (imageOfSize 1920 1080).Bounds.Dy * 1000
          / (imageOfSize 1920 1080).Bounds.Dx ∧
        0 ≤ (imageOfSize 1920 1080).Bounds.Dy * newW
          - (imageOfSize 1920 1080).Bounds.Dx * newH ∧
        (imageOfSize 1920 1080).Bounds.Dy * newW - (imageOfSize 1920 1080).Bounds.Dx * newH
          < (imageOfSize 1920 1080).Bounds.Dx) ∧
      (¬ (imageOfSize 1920 1080).Bounds.Dx * 1000 > (imageOfSize 1920 1080).Bounds.Dy * 1000 →
        (newH : Int) = 1000 ∧
        (newW : Int) = (imageOfSize 1920 1080).Bounds.Dx * 1000
          / (imageOfSize 1920 1080).Bounds.Dy ∧
        0 ≤ (imageOfSize 1920 1080).Bounds.Dx * newH
          - (imageOfSize 1920 1080).Bounds.Dy * newW ∧
        (imageOfSize 1920 1080).Bounds.Dx * newH - (imageOfSize 1920 1080).Bounds.Dy * newW
          < (imageOfSize 1920 1080).Bounds.Dy) :=
  resize_aspect_truncation ⟨configWith true 1000 1000 false "png"⟩ (imageOfSize 1920 1080)
    (by decide) (by decide) (by decide) (by decide) ⟨by decide, by decide⟩
    ⟨by decide, by decide⟩ (Or.inl (by decide))

/-! ## C10: degenerate target sizes -/

/-- C10, as stated, fails in its general part. A 3000x2 image under the positive bounds
`maxW = 1000`, `maxH = 2^62` has `3000 * 2^62 > 2 * 1000` and `2 * 1000 < 3000`, yet the
computed height is `2^62`, not `0`; the branch the code takes is the height branch, where the
computed width is `0` although `3000 * 2^62 < 2` is false. Reading the products as machine
products does not help: a 5x3 image under `maxW = 2^62`, `maxH = 2` takes the width branch,
the machine product `3 * 2^62` is negative, hence below `w = 5`, and the computed height is
not `0`. -/
theorem resize_zero_iff_fails_on_wrap :
    (0 < (imageOfSize 3000 2).Bounds.Dx ∧ 0 < (imageOfSize 3000 2).Bounds.Dy ∧
      (0 : Int) < 1000 ∧ (0 : Int) < 4611686018427387904 ∧ InIntRange 4611686018427387904 ∧
      (1000 : Int) < (imageOfSize 3000 2).Bounds.Dx) ∧
    (∀ env : Env, processor.resize env ⟨configWith true 1000 4611686018427387904 false "png"⟩
        (imageOfSize 3000 2)
      = .ok (env.resizeResize 0 4611686018427387904 (imageOfSize 3000 2) .Lanczos3)) ∧
    (¬ ∃ newW newH : Nat,
      (∀ env : Env, processor.resize env ⟨configWith true 1000 4611686018427387904 false "png"⟩
          (imageOfSize 3000 2)
        = .ok (env.resizeResize newW newH (imageOfSize 3000 2) .Lanczos3)) ∧
      ((3000 : Int) * 4611686018427387904 > 2 * 1000 →
        (newH = 0 ↔ (2 : Int) * 1000 < 3000)) ∧
      (¬ (3000 : Int) * 4611686018427387904 > 2 * 1000 →
        (newW = 0 ↔ (3000 : Int) * 4611686018427387904 < 2))) ∧
    (¬ intMul 3000 4611686018427387904 > intMul 2 1000 ∧
      ¬ ((0 : Nat) = 0 ↔ (3000 : Int) * 4611686018427387904 < 2)) ∧
    ((2 : Int) < (imageOfSize 5 3).Bounds.Dy ∧
      (∀ env : Env, processor.resize env ⟨configWith true 4611686018427387904 2 false "png"⟩
          (imageOfSize 5 3)
        = .ok (env.resizeResize 4611686018427387904 17524406870024074036 (imageOfSize 5 3)
            .Lanczos3)) ∧
      intMul 5 2 > intMul 3 4611686018427387904 ∧
      ¬ ((17524406870024074036 : Nat) = 0 ↔ intMul 3 4611686018427387904 < 5)) := by
  have hcode : ∀ env : Env,
      processor.resize env ⟨configWith true 1000 4611686018427387904 false "png"⟩
        (imageOfSize 3000 2)
      = .ok (env.resizeResize 0 4611686018427387904 (imageOfSize 3000 2) .Lanczos3) :=
    fun _ => rfl
  refine ⟨⟨by decide, by decide, by decide, by decide, ⟨by decide, by decide⟩, by decide⟩,
    hcode, ?_, ⟨by decide, by decide⟩, ⟨by decide, fun _ => rfl, by decide, by decide⟩⟩
  rintro ⟨newW, newH, hres, hwb, -⟩
  obtain ⟨-, e2⟩ := resize_dims_unique hcode hres
  subst e2
  have h := (hwb (by decide)).2 (by decide)
  revert h
  decide

/-- C10, amended: a 2000x1 image under bounds 1000x1000 is resampled to the degenerate size
1000x0; and for positive sizes and positive bounds whose cross products fit the `int` range,
when resizing applies, the width-bound case yields `newH = 0` exactly when `h * maxW < w` and
the height-bound case yields `newW = 0` exactly when `w * maxH < h`. -/
theorem resize_zero_iff (p : processor) (img : Image)
    (hw : 0 < img.Bounds.Dx) (hh : 0 < img.Bounds.Dy)
    (hmw : 0 < p.config.Resize.MaxWidth) (hmh : 0 < p.config.Resize.MaxHeight)
    (r1 : InIntRange (img.Bounds.Dx * p.config.Resize.MaxHeight))
    (r2 : InIntRange (img.Bounds.Dy * p.config.Resize.MaxWidth))
    (happ : p.config.Resize.MaxWidth < img.Bounds.Dx ∨
      p.config.Resize.MaxHeight < img.Bounds.Dy) :
    (∀ (env : Env) (q : processor) (im : Image),
      im.Bounds.Dx = 2000 → im.Bounds.Dy = 1 →
      q.config.Resize.MaxWidth = 1000 → q.config.Resize.MaxHeight = 1000 →
      q.resize env im = .ok (env.resizeResize 1000 0 im .Lanczos3)) ∧
    (∃ newW newH : Nat,
      (∀ env : Env, p.resize env img = .ok (env.resizeResize newW newH img .Lanczos3)) ∧
      (img.Bounds.Dx * p.config.Resize.MaxHeight > img.Bounds.Dy * p.config.Resize.MaxWidth →
        (newH = 0 ↔ img.Bounds.Dy * p.config.Resize.MaxWidth < img.Bounds.Dx)) ∧
      (¬ img.Bounds.Dx * p.config.Resize.MaxHeight > img.Bounds.Dy * p.config.Resize.MaxWidth →
        (newW = 0 ↔ img.Bounds.Dx * p.config.Resize.MaxHeight < img.Bounds.Dy))) := by
  constructor
  · intro env q im hx hy hmx hmy
    unfold processor.resize
    simp only [hx, hy, hmx, hmy]
    rfl
  · obtain ⟨newW, newH, hres, hd⟩ := resize_dims p img hw hh hmw hmh r1 r2 happ
    refine ⟨newW, newH, hres, ?_⟩
    rcases hd with ⟨hb, e1, e2⟩ | ⟨hb, e1, e2⟩
    · have hq := ediv_bounds (img.Bounds.Dy * p.config.Resize.MaxWidth) img.Bounds.Dx hw
      rw [← e2] at hq
      refine ⟨fun _ => ⟨fun h0 => ?_, fun hlt => ?_⟩, fun hn => absurd hb hn⟩
      · subst h0; simpa using hq.2
      · have h1 : (newH : Int) < 1 := by
          by_contra hcon
          have h2 : (1 : Int) ≤ newH := by omega
          nlinarith [mul_le_mul_of_nonneg_right h2 (le_of_lt hw), hq.1]
        omega
    · have hq := ediv_bounds (img.Bounds.Dx * p.config.Resize.MaxHeight) img.Bounds.Dy hh
      rw [← e1] at hq
      refine ⟨fun hy => absurd hy hb, fun _ => ⟨fun h0 => ?_, fun hlt => ?_⟩⟩
      · subst h0; simpa using hq.2
      · have h1 : (newW : Int) < 1 := by
          by_contra hcon
          have h2 : (1 : Int) ≤ newW := by omega
          nlinarith [mul_le_mul_of_nonneg_right h2 (le_of_lt hh), hq.1]
        omega

/-- Witness of the amended C10: a 2000x1 image under bounds 1000x1000. -/
theorem resize_zero_iff_witness :
    (∀ (env : Env) (q : processor) (im : Image),
      im.Bounds.Dx = 2000 → im.Bounds.Dy = 1 →
      q.config.Resize.MaxWidth = 1000 → q.config.Resize.MaxHeight = 1000 →
      q.resize env im = .ok (env.resizeResize 1000 0 im .Lanczos3)) ∧
    (∃ newW newH : Nat,
      (∀ env : Env, processor.resize env ⟨configWith true 1000 1000 false "png"⟩
          (imageOfSize 2000 1)
        = .ok (env.resizeResize newW newH (imageOfSize 2000 1) .Lanczos3)) ∧
      ((imageOfSize 2000 1).Bounds.Dx * 1000 > (imageOfSize 2000 1).Bounds.Dy * 1000 →
        (newH = 0 ↔ (imageOfSize 2000 1).Bounds.Dy * 1000 < (imageOfSize 2000 1).Bounds.Dx)) ∧
      (¬ (imageOfSize 2000 1).Bounds.Dx * 1000 > (imageOfSize 2000 1).Bounds.Dy * 1000 →
        (newW = 0 ↔ (imageOfSize 2000 1).Bounds.Dx * 1000 < (imageOfSize 2000 1).Bounds.Dy))) :=
  resize_zero_iff ⟨configWith true 1000 1000 false "png"⟩ (imageOfSize 2000 1)
    (by decide) (by decide) (by decide) (by decide) ⟨by decide, by decide⟩
    ⟨by decide, by decide⟩ (Or.inl (by decide))

/-! ## Format dispatch -/

/-- The empty token is left as it is by `strings.ToLower`. -/
theorem stringsToLower_empty (env : Env) : stringsToLower env "" = "" := rfl

/-- The token `"bogus"` is left as it is by `strings.ToLower`. -/
theorem stringsToLower_bogus (env : Env) : stringsToLower env "bogus" = "bogus" := rfl

/-- On a token outside the four encoder branches `convert` builds the unsupported-format
error from the token as supplied. -/
theorem convert_of_unknown (env : Env) (p : processor) (img : Image) (t : String)
    (h : stringsToLower env t ∉ ["jpeg", "jpg", "png", "webp", "gif"]) :
    p.convert env img t = ([], some (.errorf ("unsupported format: " ++ t))) := by
  simp only [List.mem_cons, List.mem_singleton, List.not_mem_nil, or_false, not_or] at h
  obtain ⟨h1, h2, h3, h4, h5⟩ := h
  unfold processor.convert
  simp only [h1, h2, h3, h4, h5, or_self, if_false]

/-- On a token inside the four encoder branches `convert` never builds a `fmt.Errorf`
message. -/
theorem convert_of_known (env : Env) (p : processor) (img : Image) (t : String)
    (h : stringsToLower env t ∈ ["jpeg", "jpg", "png", "webp", "gif"]) (b : List UInt8)
    (m : String) : p.convert env img t ≠ (b, some (.errorf m)) := by
  simp only [List.mem_cons, List.mem_singleton, List.not_mem_nil, or_false] at h
  unfold processor.convert
  intro hc
  simp only at hc
  split_ifs at hc with c1 c2 c3 c4
  · cases hj : env.jpegEncode img p.config.JPEG.Quality <;> simp [hj] at hc
  · cases hj : env.pngEncode img <;> simp [hj] at hc
  · cases hj : env.webpEncode img p.config.WebP.Lossless p.config.WebP.Quality <;>
      simp [hj] at hc
  · cases hj : env.gifEncode img <;> simp [hj] at hc
  · rcases h with h | h | h | h | h
    · exact c1 (Or.inl h)
    · exact c1 (Or.inr h)
    · exact c2 h
    · exact c3 h
    · exact c4 h

/-! ## C4: the pipeline of `Optimize` -/

/-- C4: on a decoded image `(img, detected)`, `Optimize` returns `convert(img1, fmt)` where
`img1` is `resize(img)` if `Resize.Enabled` and `img` otherwise, and `fmt` is
`Conversion.Format` if `Conversion.Enabled` and `detected` otherwise; with conversion enabled
and format `"png"` the result is that of the PNG encoder, whatever `detected` is. -/
theorem Optimize_pipeline (env : Env) (p : processor) (r : List UInt8) (img : Image)
    (detected : String) (hdec : env.imageDecode r = .ok (img, detected)) :
    p.Optimize env r
      = (if p.config.Resize.Enabled then p.resize env img else .ok img).map
          (fun im => p.convert env im
            (if p.config.Conversion.Enabled then p.config.Conversion.Format else detected)) ∧
    (p.config.Conversion.Enabled = true → p.config.Conversion.Format = "png" →
      p.Optimize env r
        = (if p.config.Resize.Enabled then p.resize env img else .ok img).map
            (fun im =>
              match env.pngEncode im with
              | .error err => ([], some (.new "failed to encode png:" err))
              | .ok buf => (buf, none))) := by
  have main : p.Optimize env r
      = (if p.config.Resize.Enabled then p.resize env img else .ok img).map
          (fun im => p.convert env im
            (if p.config.Conversion.Enabled then p.config.Conversion.Format else detected)) := by
    unfold processor.Optimize
    rw [hdec]
    cases hr : (if p.config.Resize.Enabled then p.resize env img else .ok img) with
    | error e =>
      cases he : p.config.Resize.Enabled <;> simp [he] at hr
      simp [hr, Except.map, bind, Except.bind]
    | ok im =>
      cases he : p.config.Resize.Enabled <;> simp [he] at hr
      · simp [hr, Except.map, bind, Except.bind, pure, Except.pure]
      · simp [hr, Except.map, bind, Except.bind, pure, Except.pure]
  refine ⟨main, fun hen hfmt => ?_⟩
  rw [main, hen, hfmt]
  congr 1

/-- Witness of C4: a 20x10 input detected as JPEG, with conversion to `"png"` enabled and
resize disabled, comes back from the PNG encoder (tag byte 2). -/
theorem Optimize_pipeline_witness :
    recordingEnv.imageDecode [20, 10, 0] = .ok (imageOfSize 20 10, "jpeg") ∧
    processor.Optimize recordingEnv ⟨configWith false 1000 1000 true "png"⟩ [20, 10, 0]
      = .ok ([2, 7], none) :=
  ⟨rfl, ((Optimize_pipeline recordingEnv ⟨configWith false 1000 1000 true "png"⟩ [20, 10, 0]
    (imageOfSize 20 10) "jpeg" rfl).2 rfl rfl).trans rfl⟩

/-! ## C5: the unsupported-format error of `Convert` -/

/-- C5: on a decoded image, `Convert` with token `t` returns a `fmt.Errorf` error exactly when
the lower-cased `t` is none of `"jpeg"`, `"jpg"`, `"png"`, `"webp"`, `"gif"`; it then returns
no bytes and the message `"unsupported format: "` followed by `t` as supplied. The empty
token and `"bogus"` are such tokens. -/
theorem Convert_unsupported_iff (env : Env) (p : processor) (r : List UInt8) (img : Image)
    (detected : String) (t : String) (hdec : env.imageDecode r = .ok (img, detected)) :
    ((∃ (b : List UInt8) (m : String), p.Convert env r t = .ok (b, some (.errorf m)))
      ↔ stringsToLower env t ∉ ["jpeg", "jpg", "png", "webp", "gif"]) ∧
    (stringsToLower env t ∉ ["jpeg", "jpg", "png", "webp", "gif"] →
      p.Convert env r t = .ok ([], some (.errorf ("unsupported format: " ++ t)))) ∧
    p.Convert env r "" = .ok ([], some (.errorf "unsupported format: ")) ∧
    p.Convert env r "bogus" = .ok ([], some (.errorf "unsupported format: bogus")) := by
  have hconv : ∀ s : String, p.Convert env r s = .ok (p.convert env img s) := by
    intro s
    unfold processor.Convert
    rw [hdec]
  refine ⟨⟨?_, ?_⟩, ?_, ?_, ?_⟩
  · rintro ⟨b, m, hb⟩ hmem
    rw [hconv] at hb
    exact convert_of_known env p img t hmem b m (Except.ok.inj hb)
  · intro hn
    exact ⟨[], _, by rw [hconv, convert_of_unknown env p img t hn]⟩
  · intro hn
    rw [hconv, convert_of_unknown env p img t hn]
  · rw [hconv, convert_of_unknown env p img ""
      (by rw [stringsToLower_empty]; decide)]
    rfl
  · rw [hconv, convert_of_unknown env p img "bogus"
      (by rw [stringsToLower_bogus]; decide)]
    rfl

/-- Witness of C5: the token `"bogus"` on a decoded 20x10 image. -/
theorem Convert_unsupported_iff_witness :
    recordingEnv.imageDecode [20, 10, 0] = .ok (imageOfSize 20 10, "jpeg") ∧
    processor.Convert recordingEnv ⟨configWith false 1000 1000 true "webp"⟩ [20, 10, 0] "bogus"
      = .ok ([], some (.errorf "unsupported format: bogus")) :=
  ⟨rfl, (Convert_unsupported_iff recordingEnv ⟨configWith false 1000 1000 true "webp"⟩
    [20, 10, 0] (imageOfSize 20 10) "jpeg" "bogus" rfl).2.2.2⟩

/-! ## C6: `ValidExtension` -/

/-- C6: `ValidExtension ext` is true exactly when `ext` is one of the literals `"jpeg"`,
`"jpg"`, `"gif"`, `"png"`, `"webp"`; it is false on the empty string and on the upper-case
variants `"PNG"`, `"JPEG"`, `"JPG"`, `"GIF"`, `"WEBP"`. -/
theorem ValidExtension_iff (ext : String) :
    (ValidExtension ext = true ↔
      ext = "jpeg" ∨ ext = "jpg" ∨ ext = "gif" ∨ ext = "png" ∨ ext = "webp") ∧
    (ValidExtension ext = false ↔
      ¬ (ext = "jpeg" ∨ ext = "jpg" ∨ ext = "gif" ∨ ext = "png" ∨ ext = "webp")) ∧
    ValidExtension "" = false ∧ ValidExtension "PNG" = false ∧
    ValidExtension "JPEG" = false ∧ ValidExtension "JPG" = false ∧
    ValidExtension "GIF" = false ∧ ValidExtension "WEBP" = false := by
  have h : ValidExtension ext = true ↔
      ext = "jpeg" ∨ ext = "jpg" ∨ ext = "gif" ∨ ext = "png" ∨ ext = "webp" := by
    simp only [ValidExtension, JPEG, JPG, GIF, PNG, WebP, Bool.or_eq_true, beq_iff_eq, or_assoc]
  refine ⟨h, ?_, by decide, by decide, by decide, by decide, by decide, by decide⟩
  rw [← h]
  cases ValidExtension ext <;> simp

/-! ## C7: `Resize` ignores the resize toggle and the conversion settings -/

/-- C7: on a decoded image `(img, detected)`, two configurations that agree on everything but
`Resize.Enabled`, `Conversion.Enabled` and `Conversion.Format` give the same result of
`Resize`, namely `convert(resize(img), detected)`. -/
theorem Resize_ignores_toggles (env : Env) (p1 p2 : processor) (r : List UInt8) (img : Image)
    (detected : String) (hdec : env.imageDecode r = .ok (img, detected))
    (hJ : p1.config.JPEG = p2.config.JPEG) (_hP : p1.config.PNG = p2.config.PNG)
    (hW : p1.config.WebP = p2.config.WebP)
    (hmw : p1.config.Resize.MaxWidth = p2.config.Resize.MaxWidth)
    (hmh : p1.config.Resize.MaxHeight = p2.config.Resize.MaxHeight) :
    p1.Resize env r = p2.Resize env r ∧
    p1.Resize env r = (p1.resize env img).map (fun im => p1.convert env im detected) := by
  have hmain : ∀ q : processor,
      q.Resize env r = (q.resize env img).map (fun im => q.convert env im detected) := by
    intro q
    unfold processor.Resize
    rw [hdec]
    cases hr : q.resize env img <;>
      simp only [hr, Except.map, bind, Except.bind, pure, Except.pure]
  have hres : p1.resize env img = p2.resize env img := by
    unfold processor.resize
    rw [hmw, hmh]
  have hcv : ∀ im : Image, p1.convert env im detected = p2.convert env im detected := by
    intro im
    unfold processor.convert
    rw [hJ, hW]
  refine ⟨?_, hmain p1⟩
  rw [hmain p1, hmain p2, hres]
  congr 1
  funext im
  exact hcv im

/-- Witness of C7: a 20x10 JPEG input under bounds 10x10, once with resize disabled and no
conversion, once with resize enabled and conversion to `"png"`: both are resampled to 10x5
and leave through the JPEG encoder (tag byte 1). -/
theorem Resize_ignores_toggles_witness :
    processor.Resize recordingEnv ⟨configWith false 10 10 false "webp"⟩ [20, 10, 0]
      = processor.Resize recordingEnv ⟨configWith true 10 10 true "png"⟩ [20, 10, 0] ∧
    processor.Resize recordingEnv ⟨configWith false 10 10 false "webp"⟩ [20, 10, 0]
      = .ok ([1, 7], none) :=
  ⟨(Resize_ignores_toggles recordingEnv ⟨configWith false 10 10 false "webp"⟩
      ⟨configWith true 10 10 true "png"⟩ [20, 10, 0] (imageOfSize 20 10) "jpeg" rfl rfl rfl rfl
      rfl rfl).1,
    (Resize_ignores_toggles recordingEnv ⟨configWith false 10 10 false "webp"⟩
      ⟨configWith true 10 10 true "png"⟩ [20, 10, 0] (imageOfSize 20 10) "jpeg" rfl rfl rfl rfl
      rfl rfl).2.trans rfl⟩

end Images
